import Mathlib

/-!
Verification of the k8s-operator-skills repository.

This file is a shallow embedding, in Lean 4, of the Go functions of the
repository that the checked properties talk about:

* `SetCondition` — identical method bodies on `Database` (src/unnamed/part_003),
  `Cocktail` (src/unnamed/part_002) and `MyResource` (src/patterns/crd.go);
* `MyResourceReconciler.Reconcile` / `reconcileDelete` / `updateStatus`
  (src/patterns/reconciler.go);
* `MyResourceReconciler.ReconcileWithRetry` (src/patterns/advanced-reconciler.go);
* `DatabaseReconciler.updateStatus` and `findDatabasesForConfigMap`
  (src/examples/database-operator/controllers/database_controller.go);
* `MyResourceDefaulter.setDefaults` (src/patterns/webhook.go).

Kubernetes/client effects (`r.Get`, `r.Update`, `r.Status().Update`,
`r.List`, the cleanup hook, the reconcile business logic) are modelled as
explicit inputs: an environment value fixes the outcome of every external
call, and the embedded reconcile functions return, next to the
`ctrl.Result` and error, the final in-memory object and the list of
objects that were successfully persisted, so that persistence claims can
be stated.  `metav1.Now()` is modelled by an explicit clock argument
(`now : Nat`).  Go `int32`/`int64` counters that can never overflow on
the reachable inputs are modelled as `Int`; the one place where Go
64-bit overflow is semantically reachable (the `1 << retryCount` backoff
shift) is modelled with explicit wrap-around arithmetic.
-/

/-! ## Conditions (metav1.Condition)

`metav1.ConditionStatus` is a string type with the three distinguished
values `"True"`, `"False"`, `"Unknown"`; the repository only ever
compares it for (in)equality, so it is embedded as a three-valued
inductive. `metav1.Time` is embedded as a `Nat` tick supplied by the
caller (the value `metav1.Now()` would return). -/

inductive ConditionStatus where
  | condTrue
  | condFalse
  | condUnknown
deriving DecidableEq, Repr

/-- One `metav1.Condition`.  The Go field `Type` is called `condType`
(`type` is a Lean keyword). -/
structure Condition where
  condType : String
  status : ConditionStatus
  reason : String
  message : String
  lastTransitionTime : Nat
deriving DecidableEq, Repr

/-- `SetCondition(conditionType, status, reason, message)` — the method body
shared verbatim by `Database.SetCondition` (src/unnamed/part_003 lines
107–131), `Cocktail.SetCondition` (src/unnamed/part_002 lines 446–471) and
`MyResource.SetCondition` (src/patterns/crd.go lines 85–110), acting on the
receiver's `Status.Conditions` slice.

The Go body builds `newCondition` with `LastTransitionTime: metav1.Now()`
(the `now` argument here), then walks the slice: at the first entry whose
`Type` matches it executes

    if condition.Status != newCondition.Status {
        condition.LastTransitionTime = newCondition.LastTransitionTime
    }
    d.Status.Conditions[i] = newCondition

and breaks.  `condition` is the `range` loop variable, a **copy** of the
slice element, so the guarded assignment mutates only that copy and has no
observable effect; the stored element becomes `newCondition` wholesale.
The embedding therefore replaces the first matching entry by the new
condition (fresh timestamp included) and appends when no entry matches. -/
def setCondition (now : Nat) (conditionType : String) (status : ConditionStatus)
    (reason message : String) : List Condition → List Condition
  | [] => [⟨conditionType, status, reason, message, now⟩]
  | c :: rest =>
      if c.condType = conditionType then
        ⟨conditionType, status, reason, message, now⟩ :: rest
      else
        c :: setCondition now conditionType status reason message rest

/-- `GetCondition(conditionType)` (same three files): first condition of the
given type, if any. -/
def getCondition (conditionType : String) (conds : List Condition) : Option Condition :=
  conds.find? (fun c => c.condType = conditionType)

/-- `IsReady()` (same three files): the `"Ready"` condition exists and its
status is `ConditionTrue`. -/
def isReady (conds : List Condition) : Bool :=
  match getCondition "Ready" conds with
  | some c => c.status = ConditionStatus.condTrue
  | none => false

/-! ## The Database object (src/unnamed/part_003)

Only the fields the embedded functions read or write are carried;
`metav1.ObjectMeta` is flattened into the structure the way Go embedding
makes its fields directly accessible.  The Go field `Namespace` is called
`nspace` (`namespace` is a Lean keyword). -/

structure DatabaseSpec where
  replicas : Int
  image : String
  storage : Int
  databaseName : String
  userName : String
  passwordSecretName : String
  configMapName : String
  serviceType : String
  storageClass : String
deriving DecidableEq, Repr

structure DatabaseStatus where
  phase : String
  readyReplicas : Int
  observedGeneration : Int
  conditions : List Condition
  serviceName : String
  deploymentName : String
deriving DecidableEq, Repr

structure Database where
  name : String
  nspace : String
  deletionTimestamp : Option Nat
  finalizers : List String
  generation : Int
  spec : DatabaseSpec
  status : DatabaseStatus
deriving DecidableEq, Repr

/-- `Database.SetCondition` at the object level: replaces the receiver's
`Status.Conditions` by the updated slice. -/
def dbSetCondition (now : Nat) (conditionType : String) (status : ConditionStatus)
    (reason message : String) (db : Database) : Database :=
  let conds := setCondition now conditionType status reason message db.status.conditions
  { db with status := { db.status with conditions := conds } }

/-! ## Go maps

Go maps from string to string appear as `Labels`, `Annotations` and
`Spec.Parameters`.  A Go map value can be `nil` (distinct from an empty
map and not assignable), so a map field is `Option` of an association
list; `goMapPut` is Go's `m[k] = v` on a non-nil map and `goMapGet` is
the read `m[k]` (a read from a nil map yields the zero value / absent). -/

def goMapGet (m : Option (List (String × String))) (k : String) : Option String :=
  match m with
  | none => none
  | some l => l.lookup k

def goMapPut (m : List (String × String)) (k v : String) : List (String × String) :=
  match m with
  | [] => [(k, v)]
  | (k0, v0) :: rest => if k0 = k then (k, v) :: rest else (k0, v0) :: goMapPut rest k v

/-! ## The MyResource object (src/patterns/crd.go)

Fields as declared in `MyResourceSpec` / `MyResourceStatus` / the embedded
`metav1.ObjectMeta` pieces the pattern files use.  `Namespace` is called
`nspace` and `Annotations` is called `annots` (keyword / reserved-suffix
restrictions); `Labels` and `Annotations` are nil-able Go maps. -/

structure MyResourceSpec where
  replicas : Int
  image : String
  configMapName : String
  parameters : Option (List (String × String))
deriving DecidableEq, Repr

structure MyResourceStatus where
  conditions : List Condition
  observedGeneration : Int
  readyReplicas : Int
  lastUpdated : Option Nat
deriving DecidableEq, Repr

structure MyResource where
  name : String
  nspace : String
  deletionTimestamp : Option Nat
  finalizers : List String
  generation : Int
  labels : Option (List (String × String))
  annots : Option (List (String × String))
  spec : MyResourceSpec
  status : MyResourceStatus
deriving DecidableEq, Repr

/-- `MyResource.SetCondition` (src/patterns/crd.go lines 85–110): same body
as `Database.SetCondition`, on the `MyResource` receiver. -/
def mySetCondition (now : Nat) (conditionType : String) (status : ConditionStatus)
    (reason message : String) (r : MyResource) : MyResource :=
  let conds := setCondition now conditionType status reason message r.status.conditions
  { r with status := { r.status with conditions := conds } }

/-! ## controllerutil helpers (sigs.k8s.io/controller-runtime)

Library functions the reconcilers call, embedded with their documented
semantics: `ContainsFinalizer` tests membership, `AddFinalizer` appends
the token when absent, `RemoveFinalizer` deletes every occurrence. -/

def containsFinalizer (r : MyResource) (f : String) : Bool :=
  r.finalizers.contains f

def addFinalizer (r : MyResource) (f : String) : MyResource :=
  if containsFinalizer r f then r else { r with finalizers := r.finalizers ++ [f] }

def removeFinalizer (r : MyResource) (f : String) : MyResource :=
  { r with finalizers := r.finalizers.filter (fun x => x ≠ f) }

/-! ## ctrl.Result and durations -/

/-- `ctrl.Result`; `requeueAfter` in nanoseconds (Go `time.Duration`). -/
structure CtrlResult where
  requeue : Bool
  requeueAfter : Int
deriving DecidableEq, Repr

/-- `ctrl.Result{}` -/
def emptyResult : CtrlResult := ⟨false, 0⟩

/-- `time.Second` in nanoseconds. -/
def durationSecond : Int := 1000000000

/-- `time.Minute` in nanoseconds. -/
def durationMinute : Int := 60 * durationSecond

/-! ## The reconciler (src/patterns/reconciler.go)

External calls are fixed by a `ReconcileEnv`: the outcome of the initial
`r.Get`, of `r.Update` (spec writes), of `r.Status().Update`, of the
business logic `reconcileLogic` (its `CreateOrPatch` on the Deployment,
plus the ready-replica count it reads back), of
`cleanupExternalResources`, and the value of `metav1.Now()`.
The output records the returned `ctrl.Result` and error, the final
in-memory object, the successfully persisted spec writes (`r.Update`)
and status writes (`r.Status().Update`), and whether the business-logic
path (`reconcileLogic`, STEP 4 onward) was entered. -/

inductive GetResult where
  | notFound
  | getErr
  | found (obj : MyResource)
deriving DecidableEq, Repr

structure ReconcileEnv where
  getResult : GetResult
  updateOk : Bool
  statusUpdateOk : Bool
  logicErr : Bool
  logicErrMsg : String
  deploymentReadyReplicas : Int
  cleanupErr : Bool
  now : Nat
deriving DecidableEq, Repr

structure ReconcileOut where
  result : CtrlResult
  isErr : Bool
  obj : Option MyResource
  specWrites : List MyResource
  statusWrites : List MyResource
  logicRan : Bool
deriving DecidableEq, Repr

/-- The finalizer token of src/patterns/reconciler.go (lines 67 and 104). -/
def finalizerName : String := "myresource.my.domain/finalizer"

/-- `updateStatus` (lines 151–160): sets the `"Ready"` condition via
`SetCondition`, stamps `Status.LastUpdated`, then calls
`r.Status().Update`, whose error is only logged.  Returns the mutated
object and the persisted status writes. -/
def updateStatus (env : ReconcileEnv) (inst : MyResource) (status : ConditionStatus)
    (reason message : String) : MyResource × List MyResource :=
  let inst1 := mySetCondition env.now "Ready" status reason message inst
  let inst2 := { inst1 with status := { inst1.status with lastUpdated := some env.now } }
  (inst2, if env.statusUpdateOk then [inst2] else [])

/-- `getRequeueInterval` (lines 163–169). -/
def getRequeueInterval (inst : MyResource) : Int :=
  if isReady inst.status.conditions then 5 * durationMinute else 30 * durationSecond

/-- `reconcileLogic` (lines 125–148): `CreateOrPatch` of the Deployment
(failure = `none`), then `Status.ReadyReplicas` is set from the
Deployment's status. -/
def reconcileLogic (env : ReconcileEnv) (inst : MyResource) : Option MyResource :=
  if env.logicErr then none
  else some { inst with status := { inst.status with readyReplicas := env.deploymentReadyReplicas } }

/-- `reconcileDelete` (lines 100–122): when the finalizer token is present,
run `cleanupExternalResources`; on cleanup error return it (object
untouched); on success remove the token and persist with `r.Update`.
Without the token, return an empty result. -/
def reconcileDelete (env : ReconcileEnv) (inst : MyResource) : ReconcileOut :=
  if containsFinalizer inst finalizerName then
    if env.cleanupErr then
      { result := emptyResult, isErr := true, obj := some inst,
        specWrites := [], statusWrites := [], logicRan := false }
    else
      let inst1 := removeFinalizer inst finalizerName
      if env.updateOk then
        { result := emptyResult, isErr := false, obj := some inst1,
          specWrites := [inst1], statusWrites := [], logicRan := false }
      else
        { result := emptyResult, isErr := true, obj := some inst1,
          specWrites := [], statusWrites := [], logicRan := false }
  else
    { result := emptyResult, isErr := false, obj := some inst,
      specWrites := [], statusWrites := [], logicRan := false }

/-- `MyResourceReconciler.Reconcile` (src/patterns/reconciler.go lines
42–97), step by step: STEP 1 fetch (NotFound → empty result and nil
error; other error → returned); STEP 2 deletion branch; STEP 3 add the
finalizer when absent, persist, and return `Result{Requeue: true}`
without entering the business logic; STEP 4 set
`Status.ObservedGeneration = Generation` and run `reconcileLogic`,
reporting failure through `updateStatus` and the returned error;
STEPs 5–6 report success and requeue after `getRequeueInterval`. -/
def reconcile (env : ReconcileEnv) : ReconcileOut :=
  match env.getResult with
  | GetResult.notFound =>
      { result := emptyResult, isErr := false, obj := none,
        specWrites := [], statusWrites := [], logicRan := false }
  | GetResult.getErr =>
      { result := emptyResult, isErr := true, obj := none,
        specWrites := [], statusWrites := [], logicRan := false }
  | GetResult.found inst =>
      if inst.deletionTimestamp.isSome then
        reconcileDelete env inst
      else if ! containsFinalizer inst finalizerName then
        let inst1 := addFinalizer inst finalizerName
        if env.updateOk then
          { result := { requeue := true, requeueAfter := 0 }, isErr := false,
            obj := some inst1, specWrites := [inst1], statusWrites := [], logicRan := false }
        else
          { result := emptyResult, isErr := true, obj := some inst1,
            specWrites := [], statusWrites := [], logicRan := false }
      else
        let inst1 := { inst with status := { inst.status with observedGeneration := inst.generation } }
        match reconcileLogic env inst1 with
        | none =>
            let r := updateStatus env inst1 ConditionStatus.condFalse "ReconcileError" env.logicErrMsg
            { result := emptyResult, isErr := true, obj := some r.1,
              specWrites := [], statusWrites := r.2, logicRan := true }
        | some instL =>
            let r := updateStatus env instL ConditionStatus.condTrue "Ready" "MyResource is ready"
            { result := { requeue := false, requeueAfter := getRequeueInterval r.1 }, isErr := false,
              obj := some r.1, specWrites := [], statusWrites := r.2, logicRan := true }

/-! ## Retry with exponential backoff
(src/patterns/advanced-reconciler.go, PATTERN 4, lines 189–240)

The retry count lives in the annotation `"my.domain/retryCount"`.  The
backoff arithmetic runs in Go's `time.Duration` = `int64`, where the
variable shift `1 << uint(retryCount)` and the multiplication by
`time.Second` wrap around; `int64Wrap` is two's-complement wrap-around
at 64 bits. -/

def retryCountKey : String := "my.domain/retryCount"

/-- `fmt.Sscanf(rc, "%d", &retryCount)` on the canonical decimal strings
this controller itself writes with `fmt.Sprintf("%d", _)`: the value of
the leading run of digits, or 0 (the variable's initial value) when the
scan fails.  Computed over the character list so that it reduces. -/
def sscanfNat (s : String) : Nat :=
  let ds := s.data.takeWhile Char.isDigit
  if ds.isEmpty then 0 else ds.foldl (fun n c => n * 10 + (c.toNat - '0'.toNat)) 0

/-- The stored retry count: annotation present → scanned value, else 0. -/
def parseRetryCount (annots : Option (List (String × String))) : Nat :=
  match goMapGet annots retryCountKey with
  | some rc => sscanfNat rc
  | none => 0

/-- Two's-complement wrap-around to `int64`. -/
def int64Wrap (x : Int) : Int := (x + 2 ^ 63) % 2 ^ 64 - 2 ^ 63

/-- Go `1 << uint(n)` at type `int64`: the low 64 bits of `2 ^ n`
re-interpreted as a signed value (for `n ≥ 64` all set bits have left the
word and the Go result is 0, which this also yields since `2 ^ n` is then
divisible by `2 ^ 64`). -/
def goShlOne (n : Nat) : Int := int64Wrap (2 ^ n)

/-- Lines 206–210: `backoff := time.Duration(1<<uint(retryCount)) *
time.Second; if backoff > 5*time.Minute { backoff = 5 * time.Minute }`. -/
def computeBackoff (retryCount : Nat) : Int :=
  let backoff := int64Wrap (goShlOne retryCount * durationSecond)
  if backoff > 5 * durationMinute then 5 * durationMinute else backoff

/-- Go map assignment `instance.Annotations[key] = v`, preceded by the
`make` when the map is nil (lines 214–217); on a nil map the branch
allocates an empty map first, which `getD []` reproduces. -/
def storeRetryCount (inst : MyResource) (v : String) : MyResource :=
  { inst with annots := some (goMapPut (inst.annots.getD []) retryCountKey v) }

structure RetryEnv where
  getResult : GetResult
  logicErr : Bool
deriving DecidableEq, Repr

/-- Output of `ReconcileWithRetry`: result, error, final in-memory object,
and whether the `retryCount > 10` branch fired (the "max retries
exceeded, giving up" log plus the `ReconciliationFailed` warning event of
lines 223–227). -/
structure RetryOut where
  result : CtrlResult
  isErr : Bool
  obj : Option MyResource
  gaveUp : Bool
deriving DecidableEq, Repr

/-- `MyResourceReconciler.ReconcileWithRetry` (lines 189–240).  Fetch
(`client.IgnoreNotFound`), read the retry count from the annotation, run
`reconcileLogic`; on failure compute the capped exponential backoff,
increment and store the retry count (the `r.Update` error is only
logged), then either give up — returning the error with an empty result —
when the incremented count exceeds 10, or requeue after the backoff; on
success reset a positive stored count to "0" and requeue after 5
minutes. -/
def reconcileWithRetry (env : RetryEnv) : RetryOut :=
  match env.getResult with
  | GetResult.notFound =>
      { result := emptyResult, isErr := false, obj := none, gaveUp := false }
  | GetResult.getErr =>
      { result := emptyResult, isErr := true, obj := none, gaveUp := false }
  | GetResult.found inst =>
      let retryCount := parseRetryCount inst.annots
      if env.logicErr then
        let backoff := computeBackoff retryCount
        let retryCount1 := retryCount + 1
        let inst1 := storeRetryCount inst (toString retryCount1)
        if retryCount1 > 10 then
          { result := emptyResult, isErr := true, obj := some inst1, gaveUp := true }
        else
          { result := { requeue := false, requeueAfter := backoff }, isErr := false,
            obj := some inst1, gaveUp := false }
      else
        if retryCount > 0 then
          let inst1 := storeRetryCount inst "0"
          { result := { requeue := false, requeueAfter := 5 * durationMinute }, isErr := false,
            obj := some inst1, gaveUp := false }
        else
          { result := { requeue := false, requeueAfter := 5 * durationMinute }, isErr := false,
            obj := some inst, gaveUp := false }

/-! ## Defaulting webhook (src/patterns/webhook.go lines 124–147) -/

/-- `MyResourceDefaulter.setDefaults`: default `Spec.Replicas` 0 → 1,
empty `Spec.Image` → `"nginx:latest"`, nil `Spec.Parameters` → empty map,
nil `Labels` → empty map, and absent `Labels["app"]` → the object's
name. -/
def setDefaults (inst : MyResource) : MyResource :=
  let i1 := if inst.spec.replicas = 0 then { inst with spec := { inst.spec with replicas := 1 } } else inst
  let i2 := if i1.spec.image = "" then { i1 with spec := { i1.spec with image := "nginx:latest" } } else i1
  let i3 := if i2.spec.parameters = none then { i2 with spec := { i2.spec with parameters := some [] } } else i2
  let i4 := if i3.labels = none then { i3 with labels := some [] } else i3
  if (goMapGet i4.labels "app").isNone then
    { i4 with labels := some (goMapPut (i4.labels.getD []) "app" i4.name) }
  else i4

/-! ## Database controller
(src/examples/database-operator/controllers/database_controller.go) -/

/-- The Deployment fields `updateStatus` reads back; when the `r.Get` of
the Deployment reports NotFound the code continues with the zero-valued
Deployment (empty name, 0 ready replicas). -/
structure DeploymentInfo where
  readyReplicas : Int
  name : String
deriving DecidableEq, Repr

/-- `DatabaseReconciler.updateStatus` (lines 347–373): copy the
Deployment's ready replicas and name, record the service name, set
`Status.ObservedGeneration = Generation`, then set phase and the
`"Ready"` condition according to whether the ready replicas match
`Spec.Replicas`.  (The final `r.Status().Update` persists the returned
object.) -/
def dbUpdateStatus (now : Nat) (dep : DeploymentInfo) (db : Database) : Database :=
  let st :=
    { db.status with
        readyReplicas := dep.readyReplicas,
        deploymentName := dep.name,
        serviceName := db.name,
        observedGeneration := db.generation }
  let db1 := { db with status := st }
  if dep.readyReplicas = db1.spec.replicas then
    dbSetCondition now "Ready" ConditionStatus.condTrue "Ready" "Database is ready"
      { db1 with status := { db1.status with phase := "Ready" } }
  else
    dbSetCondition now "Ready" ConditionStatus.condFalse "Progressing"
      ("Waiting for replicas: " ++ toString dep.readyReplicas ++ "/" ++ toString db1.spec.replicas)
      { db1 with status := { db1.status with phase := "Progressing" } }

/-- The identity of a ConfigMap event, and a `reconcile.Request`
(`types.NamespacedName`). -/
structure ConfigMapRef where
  name : String
  nspace : String
deriving DecidableEq, Repr

structure Request where
  name : String
  nspace : String
deriving DecidableEq, Repr

/-- `r.List(ctx, &list, client.InNamespace(ns))`: the cached Database
objects restricted to the given namespace, in cache order. -/
def listInNamespace (ns : String) (items : List Database) : List Database :=
  items.filter (fun d => d.nspace = ns)

/-- `findDatabasesForConfigMap` (lines 405–428): list the Databases in the
ConfigMap's namespace and append one request per item whose
`Spec.ConfigMapName` equals the ConfigMap's name.  (`allItems` is the
cache contents; the claims concern the successful-`List` path.) -/
def findDatabasesForConfigMap (cm : ConfigMapRef) (allItems : List Database) : List Request :=
  let list := listInNamespace cm.nspace allItems
  (list.filter (fun d => d.spec.configMapName = cm.name)).map (fun d => ⟨d.name, d.nspace⟩)

/-! ## Concrete sample objects (used by witnesses and counterexamples) -/

def sampleSpec : MyResourceSpec :=
  { replicas := 3, image := "nginx:1.25", configMapName := "cm-a", parameters := none }

def sampleStatus : MyResourceStatus :=
  { conditions := [], observedGeneration := 1, readyReplicas := 0, lastUpdated := none }

/-- A live MyResource without the finalizer token. -/
def sampleLive : MyResource :=
  { name := "mr-a", nspace := "default", deletionTimestamp := none,
    finalizers := [], generation := 2, labels := none, annots := none,
    spec := sampleSpec, status := sampleStatus }

/-- A live MyResource carrying the finalizer token. -/
def sampleLiveFin : MyResource :=
  { sampleLive with finalizers := [finalizerName] }

/-- A terminating MyResource carrying the finalizer token. -/
def sampleTerminating : MyResource :=
  { sampleLive with deletionTimestamp := some 100, finalizers := [finalizerName] }

/-- A MyResource whose stored retry count is `n`. -/
def sampleRetry (n : Nat) : MyResource :=
  { sampleLive with annots := some [(retryCountKey, toString n)] }

def sampleEnv : ReconcileEnv :=
  { getResult := GetResult.found sampleLive, updateOk := true, statusUpdateOk := true,
    logicErr := false, logicErrMsg := "", deploymentReadyReplicas := 3,
    cleanupErr := false, now := 50 }

/-- `sampleEnv` fetching the terminating object. -/
def sampleEnvTerm : ReconcileEnv :=
  { sampleEnv with getResult := GetResult.found sampleTerminating }

/-- `sampleEnvTerm` with a failing cleanup hook. -/
def sampleEnvTermFail : ReconcileEnv :=
  { sampleEnvTerm with cleanupErr := true }

/-- A failing reconcile attempt with stored retry count 3. -/
def retryEnv3 : RetryEnv :=
  { getResult := GetResult.found (sampleRetry 3), logicErr := true }

/-- The 11th consecutive failing attempt: stored retry count 10. -/
def retryEnv10 : RetryEnv :=
  { getResult := GetResult.found (sampleRetry 10), logicErr := true }

/-- A successful attempt with stored retry count 7. -/
def retryEnvOk : RetryEnv :=
  { getResult := GetResult.found (sampleRetry 7), logicErr := false }

def sampleDb : Database :=
  { name := "db-a", nspace := "default", deletionTimestamp := none,
    finalizers := [], generation := 4,
    spec := { replicas := 2, image := "postgres:16", storage := 100,
              databaseName := "app", userName := "u", passwordSecretName := "",
              configMapName := "cm-a", serviceType := "", storageClass := "std" },
    status := { phase := "", readyReplicas := 0, observedGeneration := 3,
                conditions := [], serviceName := "", deploymentName := "" } }

/-! ## Helper lemmas -/

/-- Every condition type present after `setCondition` was present before or
is the type just set. -/
theorem mem_types_setCondition (now : Nat) (t : String) (s : ConditionStatus)
    (r m : String) (cs : List Condition) (x : String)
    (hx : x ∈ (setCondition now t s r m cs).map Condition.condType) :
    x = t ∨ x ∈ cs.map Condition.condType := by
  induction cs with
  | nil =>
    simp [setCondition] at hx
    exact Or.inl hx
  | cons c rest ih =>
    by_cases hc : c.condType = t
    · simp [setCondition, hc] at hx
      rcases hx with hx | hx
      · exact Or.inl hx
      · exact Or.inr (by simp [hx])
    · simp [setCondition, hc] at hx
      rcases hx with hx | hx
      · exact Or.inr (by simp [hx])
      · rcases ih (by simpa using hx) with h | h
        · exact Or.inl h
        · exact Or.inr (by simp; exact Or.inr (by simpa using h))

/-- A type absent from a condition list matches no entry. -/
theorem filter_eq_nil_of_not_mem_types (t : String) (cs : List Condition)
    (h : t ∉ cs.map Condition.condType) :
    cs.filter (fun c => c.condType == t) = [] := by
  induction cs with
  | nil => rfl
  | cons c rest ih =>
    simp only [List.map_cons, List.mem_cons] at h
    push_neg at h
    have hc : (c.condType == t) = false := by
      simp [Ne.symm h.1]
    simp [List.filter, hc, ih h.2]

/-- Looking up the key just written by `goMapPut`. -/
theorem lookup_goMapPut (m : List (String × String)) (k v : String) :
    (goMapPut m k v).lookup k = some v := by
  induction m with
  | nil => simp [goMapPut, List.lookup]
  | cons p rest ih =>
    rcases p with ⟨k0, v0⟩
    by_cases hk : k0 = k
    · simp [goMapPut, hk, List.lookup]
    · simp only [goMapPut, if_neg hk, List.lookup]
      have : (k == k0) = false := by simp [Ne.symm hk]
      simp [this, ih]

/-! ## Claim theorems -/

/-- C1 (refuting the claim as stated; code bug): `SetCondition` on a stored
condition of the same type and the *same* status but a different reason and
message still replaces the stored `LastTransitionTime` (5) by the fresh
`metav1.Now()` value (9): the write that was meant to preserve the old
transition time targets the `range` loop copy, so the timestamp changes on
every update, not only when the status value changes. -/
theorem setCondition_stamps_timestamp_on_reason_only_update :
    setCondition 9 "Ready" ConditionStatus.condTrue "B" "m2"
        [⟨"Ready", ConditionStatus.condTrue, "A", "m", 5⟩]
      = [⟨"Ready", ConditionStatus.condTrue, "B", "m2", 9⟩] := by
  decide

/-- C9: on a conditions list with at most one entry per type,
`SetCondition(t, s, r, m)` keeps types unique, leaves exactly one
condition of type `t` — carrying exactly the given status, reason and
message — and leaves every condition of any other type unchanged. -/
theorem setCondition_unique_per_type (now : Nat) (t : String)
    (s : ConditionStatus) (r m : String) (cs : List Condition)
    (h : (cs.map Condition.condType).Nodup) :
    ((setCondition now t s r m cs).map Condition.condType).Nodup
    ∧ (setCondition now t s r m cs).filter (fun c => c.condType == t)
        = [⟨t, s, r, m, now⟩]
    ∧ (setCondition now t s r m cs).filter (fun c => ! (c.condType == t))
        = cs.filter (fun c => ! (c.condType == t)) := by
  induction cs with
  | nil =>
    refine ⟨by simp [setCondition], ?_, ?_⟩
    · simp [setCondition, List.filter]
    · simp [setCondition, List.filter]
  | cons c rest ih =>
    rw [List.map_cons, List.nodup_cons] at h
    obtain ⟨hnotmem, hnd⟩ := h
    by_cases hc : c.condType = t
    · subst hc
      refine ⟨?_, ?_, ?_⟩
      · have hmap : (setCondition now c.condType s r m (c :: rest)).map Condition.condType
            = c.condType :: rest.map Condition.condType := by
          simp [setCondition]
        rw [hmap, List.nodup_cons]
        exact ⟨hnotmem, hnd⟩
      · have hrest : rest.filter (fun c2 => c2.condType == c.condType) = [] :=
          filter_eq_nil_of_not_mem_types _ _ hnotmem
        simp [setCondition, List.filter, hrest]
      · simp [setCondition, List.filter]
    · obtain ⟨ih1, ih2, ih3⟩ := ih hnd
      refine ⟨?_, ?_, ?_⟩
      · simp only [setCondition, if_neg hc, List.map_cons, List.nodup_cons]
        refine ⟨fun hmem => ?_, ih1⟩
        rcases mem_types_setCondition now t s r m rest c.condType hmem with h1 | h1
        · exact hc h1
        · exact hnotmem h1
      · have hcb : (c.condType == t) = false := by simp [hc]
        simp only [setCondition, if_neg hc, List.filter, hcb]
        exact ih2
      · have hcb : (c.condType == t) = false := by simp [hc]
        simp only [setCondition, if_neg hc, List.filter, hcb]
        simp [ih3]

/-- Witness for C9 at a concrete input: a two-type list, updating the
`"Ready"` entry. -/
theorem setCondition_unique_per_type_witness :
    (([⟨"Other", ConditionStatus.condFalse, "r0", "m0", 1⟩,
       ⟨"Ready", ConditionStatus.condTrue, "r1", "m1", 2⟩] : List Condition).map
        Condition.condType).Nodup
    ∧ (((setCondition 7 "Ready" ConditionStatus.condFalse "R" "M"
          [⟨"Other", ConditionStatus.condFalse, "r0", "m0", 1⟩,
           ⟨"Ready", ConditionStatus.condTrue, "r1", "m1", 2⟩]).map
            Condition.condType).Nodup
      ∧ (setCondition 7 "Ready" ConditionStatus.condFalse "R" "M"
          [⟨"Other", ConditionStatus.condFalse, "r0", "m0", 1⟩,
           ⟨"Ready", ConditionStatus.condTrue, "r1", "m1", 2⟩]).filter
            (fun c => c.condType == "Ready")
          = [⟨"Ready", ConditionStatus.condFalse, "R", "M", 7⟩]
      ∧ (setCondition 7 "Ready" ConditionStatus.condFalse "R" "M"
          [⟨"Other", ConditionStatus.condFalse, "r0", "m0", 1⟩,
           ⟨"Ready", ConditionStatus.condTrue, "r1", "m1", 2⟩]).filter
            (fun c => ! (c.condType == "Ready"))
          = [⟨"Other", ConditionStatus.condFalse, "r0", "m0", 1⟩].filter
              (fun c => ! (c.condType == "Ready"))) := by
  constructor
  · decide
  · exact setCondition_unique_per_type 7 "Ready" ConditionStatus.condFalse "R" "M"
      [⟨"Other", ConditionStatus.condFalse, "r0", "m0", 1⟩,
       ⟨"Ready", ConditionStatus.condTrue, "r1", "m1", 2⟩] (by decide)

/-- `reconcileDelete` never enters the business-logic path. -/
theorem reconcileDelete_not_logic (env : ReconcileEnv) (inst : MyResource) :
    (reconcileDelete env inst).logicRan = false := by
  unfold reconcileDelete
  split_ifs <;> rfl

/-- C5: a reconcile whose fetch reports NotFound returns the empty result
and no error — a success outcome, so the identity is not requeued. -/
theorem reconcile_notFound_no_requeue (env : ReconcileEnv)
    (hget : env.getResult = GetResult.notFound) :
    (reconcile env).result = emptyResult ∧ (reconcile env).isErr = false := by
  simp [reconcile, hget]

/-- Witness for C5 at a concrete environment. -/
theorem reconcile_notFound_no_requeue_witness :
    (reconcile { sampleEnv with getResult := GetResult.notFound }).result = emptyResult
    ∧ (reconcile { sampleEnv with getResult := GetResult.notFound }).isErr = false :=
  reconcile_notFound_no_requeue _ rfl

/-- C3: on a live object without the finalizer token, reconcile adds the
token, persists exactly that object with `r.Update`, returns
`Result{Requeue: true}` with no error, and does not enter the business
logic; and the business-logic path runs only when the token was already
present on the fetched object. -/
theorem reconcile_adds_finalizer_before_logic :
    (∀ (env : ReconcileEnv) (inst : MyResource),
        env.getResult = GetResult.found inst →
        inst.deletionTimestamp = none →
        containsFinalizer inst finalizerName = false →
        env.updateOk = true →
        (reconcile env).result = { requeue := true, requeueAfter := 0 }
        ∧ (reconcile env).isErr = false
        ∧ (reconcile env).specWrites = [addFinalizer inst finalizerName]
        ∧ finalizerName ∈ (addFinalizer inst finalizerName).finalizers
        ∧ (reconcile env).logicRan = false)
    ∧ (∀ (env : ReconcileEnv) (inst : MyResource),
        env.getResult = GetResult.found inst →
        (reconcile env).logicRan = true →
        containsFinalizer inst finalizerName = true) := by
  constructor
  · intro env inst hget hlive hfin hupd
    have hmem : finalizerName ∉ inst.finalizers := by
      simpa [containsFinalizer] using hfin
    refine ⟨?_, ?_, ?_, ?_, ?_⟩ <;>
      simp [reconcile, hget, hlive, hfin, hmem, hupd, addFinalizer, containsFinalizer]
  · intro env inst hget hran
    by_cases hfin : containsFinalizer inst finalizerName = true
    · exact hfin
    · exfalso
      have hfin' : containsFinalizer inst finalizerName = false := by
        simpa using hfin
      cases hd : inst.deletionTimestamp.isSome <;>
        cases hu : env.updateOk <;>
          simp [reconcile, hget, hd, hu, hfin', reconcileDelete_not_logic] at hran

/-- Witness for C3 at a concrete environment (live object, token absent,
spec write succeeds). -/
theorem reconcile_adds_finalizer_before_logic_witness :
    (reconcile sampleEnv).result = { requeue := true, requeueAfter := 0 }
    ∧ (reconcile sampleEnv).isErr = false
    ∧ (reconcile sampleEnv).specWrites = [addFinalizer sampleLive finalizerName]
    ∧ finalizerName ∈ (addFinalizer sampleLive finalizerName).finalizers
    ∧ (reconcile sampleEnv).logicRan = false :=
  reconcile_adds_finalizer_before_logic.1 sampleEnv sampleLive rfl rfl (by decide) rfl

/-- C4: on a terminating object carrying the finalizer token — if cleanup
succeeds the token is removed and the shrunken object is persisted with
`r.Update`; if cleanup fails the call returns an error (for the backoff
requeue path) with the empty result, nothing is persisted, and the
object, token included, is left unchanged. -/
theorem reconcile_terminating_cleanup :
    ∀ (env : ReconcileEnv) (inst : MyResource) (d : Nat),
      env.getResult = GetResult.found inst →
      inst.deletionTimestamp = some d →
      containsFinalizer inst finalizerName = true →
      ((env.cleanupErr = false → env.updateOk = true →
          (reconcile env).isErr = false
          ∧ (reconcile env).obj = some (removeFinalizer inst finalizerName)
          ∧ finalizerName ∉ (removeFinalizer inst finalizerName).finalizers
          ∧ (reconcile env).specWrites = [removeFinalizer inst finalizerName])
       ∧ (env.cleanupErr = true →
          (reconcile env).result = emptyResult
          ∧ (reconcile env).isErr = true
          ∧ (reconcile env).obj = some inst
          ∧ (reconcile env).specWrites = []
          ∧ containsFinalizer inst finalizerName = true)) := by
  intro env inst d hget hdel hfin
  have hds : inst.deletionTimestamp.isSome = true := by simp [hdel]
  constructor
  · intro hclean hupd
    refine ⟨?_, ?_, ?_, ?_⟩ <;>
      simp [reconcile, reconcileDelete, hget, hds, hfin, hclean, hupd,
        removeFinalizer, List.mem_filter]
  · intro hclean
    refine ⟨?_, ?_, ?_, ?_, hfin⟩ <;>
      simp [reconcile, reconcileDelete, hget, hds, hfin, hclean]

/-- Witness for C4 at concrete environments (both cleanup outcomes). -/
theorem reconcile_terminating_cleanup_witness :
    ((reconcile sampleEnvTerm).isErr = false
      ∧ (reconcile sampleEnvTerm).obj = some (removeFinalizer sampleTerminating finalizerName)
      ∧ finalizerName ∉ (removeFinalizer sampleTerminating finalizerName).finalizers
      ∧ (reconcile sampleEnvTerm).specWrites = [removeFinalizer sampleTerminating finalizerName])
    ∧ ((reconcile sampleEnvTermFail).result = emptyResult
      ∧ (reconcile sampleEnvTermFail).isErr = true
      ∧ (reconcile sampleEnvTermFail).obj = some sampleTerminating
      ∧ (reconcile sampleEnvTermFail).specWrites = []
      ∧ containsFinalizer sampleTerminating finalizerName = true) := by
  constructor
  · exact (reconcile_terminating_cleanup sampleEnvTerm
      sampleTerminating 100 rfl rfl (by decide)).1 rfl rfl
  · exact (reconcile_terminating_cleanup sampleEnvTermFail
      sampleTerminating 100 rfl rfl (by decide)).2 rfl

/-- C8: a reconcile step only ever sets `Status.ObservedGeneration` to the
object's current `Generation` and never touches `Generation`, so if the
fetched object satisfies `observedGeneration ≤ generation`, then every
object the step persists (spec or status write) and the final in-memory
object satisfy it too; and the database controller's `updateStatus` sets
`Status.ObservedGeneration` to exactly the object's `Generation`. -/
theorem observedGeneration_le_generation :
    (∀ (env : ReconcileEnv) (inst : MyResource),
        env.getResult = GetResult.found inst →
        inst.status.observedGeneration ≤ inst.generation →
        ((∀ w ∈ (reconcile env).specWrites, w.status.observedGeneration ≤ w.generation)
         ∧ (∀ w ∈ (reconcile env).statusWrites, w.status.observedGeneration ≤ w.generation)
         ∧ (∀ o, (reconcile env).obj = some o → o.status.observedGeneration ≤ o.generation)))
    ∧ (∀ (now : Nat) (dep : DeploymentInfo) (db : Database),
        (dbUpdateStatus now dep db).status.observedGeneration = db.generation
        ∧ (dbUpdateStatus now dep db).generation = db.generation) := by
  constructor
  · intro env inst hget hinv
    cases hd : inst.deletionTimestamp.isSome <;>
      cases hf : containsFinalizer inst finalizerName <;>
        cases hc : env.cleanupErr <;>
          cases hu : env.updateOk <;>
            cases hl : env.logicErr <;>
              cases hs : env.statusUpdateOk <;>
                refine ⟨?_, ?_, ?_⟩ <;>
                  simp [reconcile, reconcileDelete, reconcileLogic, updateStatus,
                    mySetCondition, removeFinalizer, addFinalizer, hget, hd, hf,
                    hc, hu, hl, hs, hinv]
  · intro now dep db
    by_cases hr : dep.readyReplicas = db.spec.replicas <;>
      simp [dbUpdateStatus, dbSetCondition, hr]

/-- Witness for C8 at concrete inputs: the full reconcile step on
`sampleEnv` and the database `updateStatus` on `sampleDb`. -/
theorem observedGeneration_le_generation_witness :
    ((∀ w ∈ (reconcile sampleEnv).specWrites, w.status.observedGeneration ≤ w.generation)
     ∧ (∀ w ∈ (reconcile sampleEnv).statusWrites, w.status.observedGeneration ≤ w.generation)
     ∧ (∀ o, (reconcile sampleEnv).obj = some o → o.status.observedGeneration ≤ o.generation))
    ∧ ((dbUpdateStatus 5 ⟨2, "db-a"⟩ sampleDb).status.observedGeneration = sampleDb.generation
       ∧ (dbUpdateStatus 5 ⟨2, "db-a"⟩ sampleDb).generation = sampleDb.generation) :=
  ⟨observedGeneration_le_generation.1 sampleEnv sampleLive rfl (by decide),
   observedGeneration_le_generation.2 5 ⟨2, "db-a"⟩ sampleDb⟩

/-- C2 (refuting the claim as stated): the 11th consecutive failure — the
fetched object stores retry count 10 — is *not* requeued with backoff:
`ReconcileWithRetry` takes its explicit give-up branch ("max retries
exceeded, giving up", with a `ReconciliationFailed` warning event) and
returns the error with the empty result instead of a backoff
`RequeueAfter`. -/
theorem reconcileWithRetry_gives_up_after_ten :
    (reconcileWithRetry retryEnv10).result = emptyResult
    ∧ (reconcileWithRetry retryEnv10).isErr = true
    ∧ (reconcileWithRetry retryEnv10).gaveUp = true := by
  decide

/-- C2 amended: a failing attempt is requeued with the computed
exponential backoff only while the incremented retry count is at most 10;
as soon as it exceeds 10 the reconciler gives up, returning the error
with an empty result (any further retry is left to the framework's
error-path rate limiter) instead of its own backoff requeue. -/
theorem reconcileWithRetry_retry_bound :
    ∀ (env : RetryEnv) (inst : MyResource) (n : Nat),
      env.getResult = GetResult.found inst → env.logicErr = true →
      parseRetryCount inst.annots = n →
      ((n + 1 ≤ 10 →
          (reconcileWithRetry env).result = { requeue := false, requeueAfter := computeBackoff n }
          ∧ (reconcileWithRetry env).isErr = false
          ∧ (reconcileWithRetry env).gaveUp = false)
       ∧ (n + 1 > 10 →
          (reconcileWithRetry env).result = emptyResult
          ∧ (reconcileWithRetry env).isErr = true
          ∧ (reconcileWithRetry env).gaveUp = true)) := by
  intro env inst n hget hfail hn
  constructor
  · intro hle
    have hngt : ¬ (n + 1 > 10) := by omega
    refine ⟨?_, ?_, ?_⟩ <;> simp [reconcileWithRetry, hget, hfail, hn, hngt]
  · intro hgt
    refine ⟨?_, ?_, ?_⟩ <;> simp [reconcileWithRetry, hget, hfail, hn, hgt]

/-- Witness for the amended C2 at concrete inputs (both sides of the
bound). -/
theorem reconcileWithRetry_retry_bound_witness :
    ((reconcileWithRetry retryEnv3).result = { requeue := false, requeueAfter := computeBackoff 3 }
      ∧ (reconcileWithRetry retryEnv3).isErr = false
      ∧ (reconcileWithRetry retryEnv3).gaveUp = false)
    ∧ ((reconcileWithRetry retryEnv10).isErr = true ∧ (reconcileWithRetry retryEnv10).gaveUp = true) := by
  refine ⟨(reconcileWithRetry_retry_bound retryEnv3 (sampleRetry 3) 3 rfl rfl (by decide)).1 (by omega), ?_⟩
  have h := (reconcileWithRetry_retry_bound retryEnv10 (sampleRetry 10) 10 rfl rfl (by decide)).2 (by omega)
  exact ⟨h.2.1, h.2.2⟩

/-- C6: while the give-up bound is not hit (stored count `n`, `n + 1 ≤ 10`)
a failing attempt is requeued after exactly `min(2 ^ n seconds, 5 minutes)`;
this delay is non-decreasing in the consecutive-failure count over the
requeued range; and one successful reconcile leaves the stored retry count
at zero, so the next failure starts again at the base delay. -/
theorem reconcileWithRetry_backoff_curve :
    (∀ (env : RetryEnv) (inst : MyResource) (n : Nat),
        env.getResult = GetResult.found inst → env.logicErr = true →
        parseRetryCount inst.annots = n → n + 1 ≤ 10 →
        (reconcileWithRetry env).result
          = { requeue := false, requeueAfter := ((min (2 ^ n) 300 : Nat) : Int) * durationSecond })
    ∧ (∀ n : Nat, n ≤ 9 → ∀ m : Nat, m ≤ n → computeBackoff m ≤ computeBackoff n)
    ∧ (∀ (env : RetryEnv) (inst : MyResource),
        env.getResult = GetResult.found inst → env.logicErr = false →
        ∀ o, (reconcileWithRetry env).obj = some o → parseRetryCount o.annots = 0) := by
  refine ⟨?_, ?_, ?_⟩
  · intro env inst n hget hfail hn hle
    have hn9 : n ≤ 9 := by omega
    have hb : computeBackoff n = ((min (2 ^ n) 300 : Nat) : Int) * durationSecond := by
      interval_cases n <;> decide
    have hngt : ¬ (n + 1 > 10) := by omega
    simp [reconcileWithRetry, hget, hfail, hn, hngt, hb]
  · intro n hn m hm
    interval_cases n <;> interval_cases m <;> decide
  · intro env inst hget hok o ho
    by_cases h0 : parseRetryCount inst.annots > 0
    · simp [reconcileWithRetry, hget, hok, h0] at ho
      subst ho
      simp [storeRetryCount, parseRetryCount, goMapGet, lookup_goMapPut]
      decide
    · have h0z : parseRetryCount inst.annots = 0 := by omega
      simp [reconcileWithRetry, hget, hok, h0] at ho
      subst ho
      exact h0z

/-- Witness for C6 at concrete inputs. -/
theorem reconcileWithRetry_backoff_curve_witness :
    (reconcileWithRetry retryEnv3).result
      = { requeue := false, requeueAfter := ((min (2 ^ 3) 300 : Nat) : Int) * durationSecond }
    ∧ computeBackoff 2 ≤ computeBackoff 5
    ∧ parseRetryCount (storeRetryCount (sampleRetry 7) "0").annots = 0 := by
  refine ⟨reconcileWithRetry_backoff_curve.1 retryEnv3 (sampleRetry 3) 3 rfl rfl (by decide) (by omega),
    reconcileWithRetry_backoff_curve.2.1 5 (by omega) 2 (by omega),
    reconcileWithRetry_backoff_curve.2.2 retryEnvOk (sampleRetry 7) rfl rfl _ (by decide)⟩

/-- C7: the mapping function returns exactly the identities of the
Databases in the ConfigMap's namespace whose `Spec.ConfigMapName` equals
the ConfigMap's name — membership characterisation plus one request per
matching resource (the count of requests equals the count of matching
resources). -/
theorem findDatabasesForConfigMap_exact (cm : ConfigMapRef) (items : List Database) :
    (∀ r : Request, r ∈ findDatabasesForConfigMap cm items ↔
        ∃ d, d ∈ items ∧ d.nspace = cm.nspace ∧ d.spec.configMapName = cm.name
          ∧ r = ⟨d.name, d.nspace⟩)
    ∧ (findDatabasesForConfigMap cm items).length
        = (items.filter (fun d => d.nspace == cm.nspace && d.spec.configMapName == cm.name)).length := by
  constructor
  · intro r
    simp only [findDatabasesForConfigMap, listInNamespace, List.mem_map, List.mem_filter,
      decide_eq_true_eq]
    constructor
    · rintro ⟨d, ⟨⟨hd, hns⟩, hcm⟩, hr⟩
      exact ⟨d, hd, hns, hcm, hr.symm⟩
    · rintro ⟨d, hd, hns, hcm, hr⟩
      exact ⟨d, ⟨⟨hd, hns⟩, hcm⟩, hr.symm⟩
  · induction items with
    | nil => rfl
    | cons d rest ih =>
      by_cases h1 : d.nspace = cm.nspace <;>
        by_cases h2 : d.spec.configMapName = cm.name <;>
          simp_all [findDatabasesForConfigMap, listInNamespace]

/-- Witness for C7 at a concrete input: two Databases in the namespace,
one referencing the ConfigMap, plus one in another namespace. -/
theorem findDatabasesForConfigMap_exact_witness :
    ((⟨"db-a", "default"⟩ : Request) ∈
        findDatabasesForConfigMap ⟨"cm-a", "default"⟩
          [sampleDb, { sampleDb with name := "db-b", spec := { sampleDb.spec with configMapName := "other" } },
           { sampleDb with name := "db-c", nspace := "elsewhere" }]
      ↔ ∃ d, d ∈ [sampleDb, { sampleDb with name := "db-b", spec := { sampleDb.spec with configMapName := "other" } },
           { sampleDb with name := "db-c", nspace := "elsewhere" }]
          ∧ d.nspace = "default" ∧ d.spec.configMapName = "cm-a"
          ∧ (⟨"db-a", "default"⟩ : Request) = ⟨d.name, d.nspace⟩) :=
  (findDatabasesForConfigMap_exact ⟨"cm-a", "default"⟩
    [sampleDb, { sampleDb with name := "db-b", spec := { sampleDb.spec with configMapName := "other" } },
     { sampleDb with name := "db-c", nspace := "elsewhere" }]).1 ⟨"db-a", "default"⟩

/-- After `setDefaults`, none of the five defaulting guards can fire
again. -/
theorem setDefaults_establishes (inst : MyResource) :
    ¬ (setDefaults inst).spec.replicas = 0
    ∧ ¬ (setDefaults inst).spec.image = ""
    ∧ ¬ (setDefaults inst).spec.parameters = none
    ∧ ¬ (setDefaults inst).labels = none
    ∧ (goMapGet (setDefaults inst).labels "app").isNone = false := by
  refine ⟨?_, ?_, ?_, ?_, ?_⟩ <;>
    by_cases h1 : inst.spec.replicas = 0 <;>
      by_cases h2 : inst.spec.image = "" <;>
        by_cases h3 : inst.spec.parameters = none <;>
          (rcases hL : inst.labels with _ | l <;>
            [ (simp [setDefaults, h1, h2, h3, hL, goMapGet, lookup_goMapPut]);
              (cases hA : l.lookup "app" <;>
                simp [setDefaults, h1, h2, h3, hL, hA, goMapGet, lookup_goMapPut]) ])

/-- `setDefaults` is the identity on an object none of whose defaulting
guards fire. -/
theorem setDefaults_of_fixed (inst : MyResource)
    (h1 : ¬ inst.spec.replicas = 0) (h2 : ¬ inst.spec.image = "")
    (h3 : ¬ inst.spec.parameters = none) (h4 : ¬ inst.labels = none)
    (h5 : (goMapGet inst.labels "app").isNone = false) :
    setDefaults inst = inst := by
  simp [setDefaults, h1, h2, h3, h4, h5]

/-- C10: the defaulting webhook's `setDefaults` is idempotent — the second
application changes nothing. -/
theorem setDefaults_idempotent (inst : MyResource) :
    setDefaults (setDefaults inst) = setDefaults inst := by
  obtain ⟨h1, h2, h3, h4, h5⟩ := setDefaults_establishes inst
  exact setDefaults_of_fixed _ h1 h2 h3 h4 h5
